import Mathlib

/-!
Shallow embedding of the `ubs2ynab` importer (file `ubs2ynab.py`) and proofs
about its deduplication-identifier assigner (`_populateImportIds`), its CSV
normalizers (`importCreditCsv`, `importRevolutCsv`) and the email-notification
correlator (`importUbsFromEmail`).

Modelling conventions:
* Python `datetime.date` values are `Date` records; `datetime` values carry
  both their calendar date and an absolute timestamp in whole seconds.
* Monetary CSV/notification fields hold exact decimal values with two decimal
  places; they are modelled as integer counts of hundredths (cents), and the
  source's `int(float(s) * 1000)` becomes multiplication by 10.  (The source
  computes through binary floating point; the model uses exact decimal
  arithmetic, which agrees on all two-decimal values considered here.)
* A `NewTransaction` whose `import_id` is `""` models the Python object whose
  `import_id` is unset (`None`), matching the falsiness test `if not t.import_id`.
-/

/-- Calendar date (Python `datetime.date`). -/
structure Date where
  year : Nat
  month : Nat
  day : Nat
deriving DecidableEq

/-- Zero-padding to two digits, as in Python's ISO date rendering. -/
def pad2 (n : Nat) : String := if n < 10 then "0" ++ toString n else toString n

/-- Zero-padding to four digits, as in Python's ISO date rendering. -/
def pad4 (n : Nat) : String :=
  if n < 10 then "000" ++ toString n
  else if n < 100 then "00" ++ toString n
  else if n < 1000 then "0" ++ toString n
  else toString n

/-- ISO rendering of a date, as Python `str(date)` produces inside the
f-string of `_populateImportIds`. -/
def Date.iso (d : Date) : String := pad4 d.year ++ "-" ++ pad2 d.month ++ "-" ++ pad2 d.day

/-- The two `ynab.models.TransactionClearedStatus` values the program uses. -/
inductive Cleared where
  | cleared
  | uncleared
deriving DecidableEq

/-- Model of `ynab.models.new_transaction.NewTransaction`, restricted to the
fields the program sets.  `import_id = ""` models the unset (`None`) state. -/
structure NewTransaction where
  account_id : String := ""
  var_date : Date
  payee_name : Option String := none
  amount : Int := 0
  cleared : Option Cleared := none
  import_id : String := ""
deriving DecidableEq

/-- The identifier format of `_populateImportIds`:
`f'UBS2YNAB:{other_t.amount}:{other_t.var_date}:{ordinal}'`. -/
def importIdFor (amount : Int) (d : Date) (ordinal : Nat) : String :=
  "UBS2YNAB:" ++ toString amount ++ ":" ++ d.iso ++ ":" ++ toString ordinal

/-- Indices of all transactions carrying the given `(var_date, amount)` pair,
in list order (the comprehension over `enumerate(transactions)` in
`_populateImportIds`, keyed by the pair's value). -/
def groupIndices (ts : List NewTransaction) (d : Date) (a : Int) : List Nat :=
  (List.range ts.length).filter fun k =>
    match ts.get? k with
    | some item => decide (item.var_date = d ∧ item.amount = a)
    | none => false

/-- The list `same_date_amount_indicies` of `_populateImportIds`: indices of
all transactions sharing `t`'s date and amount. -/
def sameDateAmountIndices (ts : List NewTransaction) (t : NewTransaction) : List Nat :=
  groupIndices ts t.var_date t.amount

/-- In-place mutation `transactions[j].field = ...`, as a functional update. -/
def modifyAt (ts : List NewTransaction) (j : Nat) (f : NewTransaction → NewTransaction) :
    List NewTransaction :=
  match ts.get? j with
  | some t => ts.set j (f t)
  | none => ts

/-- The inner loop `for (ordinal, t_index) in enumerate(same_date_amount_indicies)`
of `_populateImportIds`: writes `import_id` at each listed index, ordinals
counting up from `ordinal`. -/
def assignIds (ordinal : Nat) (idxs : List Nat) (ts : List NewTransaction) :
    List NewTransaction :=
  match idxs with
  | [] => ts
  | j :: rest =>
      assignIds (ordinal + 1) rest
        (modifyAt ts j fun t => { t with import_id := importIdFor t.amount t.var_date ordinal })

/-- One iteration of the outer `for t in transactions` loop of
`_populateImportIds`, looking at index `i` of the current state. -/
def populateStep (ts : List NewTransaction) (i : Nat) : List NewTransaction :=
  match ts.get? i with
  | none => ts
  | some t =>
      if t.import_id = "" then
        assignIds 0 (sameDateAmountIndices ts t).reverse ts
      else ts

/-- The outer loop of `_populateImportIds`: `fuel` iterations starting at
index `i`. -/
def populateAux : Nat → Nat → List NewTransaction → List NewTransaction
  | _, 0, ts => ts
  | i, fuel + 1, ts => populateAux (i + 1) fuel (populateStep ts i)

/-- Function `_populateImportIds`: populates `import_id` over the whole list.
The list is expected newest-first (the UBS CSV order, per the source's
docstring). -/
def populateImportIds (ts : List NewTransaction) : List NewTransaction :=
  populateAux 0 ts.length ts

example :
    (populateImportIds
      [{ var_date := ⟨2025, 1, 1⟩, amount := 100000 },
       { var_date := ⟨2025, 1, 1⟩, amount := 100000 }]).map NewTransaction.import_id =
      ["UBS2YNAB:100000:2025-01-01:1", "UBS2YNAB:100000:2025-01-01:0"] := by
  decide

/-- One data row of the UBS credit-card CSV, restricted to the fields
`importCreditCsv` reads.  Monetary fields are exact decimals in cents; `none`
models an empty `Credit`/`Debit` string (the falsiness tests `if row['Credit']`
and `elif row['Debit']`). -/
structure CreditRow where
  accountNumber : String
  purchaseDate : Date
  bookingText : String
  credit : Option Int
  debit : Option Int
  amountCents : Int
deriving DecidableEq

/-- Function `_isCreditIncomingTransfer`. -/
def isCreditIncomingTransfer (payee : String) : Bool :=
  payee == "TRANSFER FROM ACCOUNT"

/-- Conversion of one credit-CSV row into a transaction (loop body of
`importCreditCsv`). -/
def creditRowToTxn (account_id : String) (r : CreditRow) : NewTransaction :=
  match r.credit with
  | some c =>
      { account_id := account_id, var_date := r.purchaseDate,
        payee_name := some r.bookingText, amount := 10 * c, cleared := some .cleared }
  | none =>
      match r.debit with
      | some dc =>
          { account_id := account_id, var_date := r.purchaseDate,
            payee_name := some r.bookingText, amount := -(10 * dc), cleared := some .cleared }
      | none =>
          let a : Int := -(10 * r.amountCents)
          { account_id := account_id, var_date := r.purchaseDate,
            payee_name := some r.bookingText,
            amount := if isCreditIncomingTransfer r.bookingText then -a else a,
            cleared := some .uncleared }

/-- Batch built by `importCreditCsv`: rows up to the first one with an empty
`Account number` field (the trailing summary rows trigger `break`), converted,
then ids populated.  This is the batch handed to `_createYnabTransactions`. -/
def importCreditCsv (account_id : String) (rows : List CreditRow) : List NewTransaction :=
  populateImportIds
    ((rows.takeWhile fun r => !(r.accountNumber == "")).map (creditRowToTxn account_id))

/-- One data row of the Revolut CSV, restricted to the fields
`importRevolutCsv` reads.  Monetary fields are exact decimals in cents. -/
structure RevolutRow where
  product : String
  rowType : String
  startedDate : Date
  description : String
  amountCents : Int
  feeCents : Int
  state : String
deriving DecidableEq

/-- Row filter of `importRevolutCsv`: keep only `Current` product rows, and
drop pocket transfers and balance-migration transfers (the two `continue`
branches). -/
def revolutKeep (r : RevolutRow) : Bool :=
  r.product == "Current" &&
    !(r.rowType == "Transfer" &&
      (r.description.startsWith "To pocket " ||
        r.description == "Balance migration to another region or legal entity"))

/-- Conversion of one kept Revolut row (loop body of `importRevolutCsv`):
`t.amount = amount - fee` in milliunits; cleared iff `State` is `COMPLETED`. -/
def revolutRowToTxn (account_id : String) (r : RevolutRow) : NewTransaction :=
  { account_id := account_id, var_date := r.startedDate,
    payee_name := some r.description,
    amount := 10 * r.amountCents - 10 * r.feeCents,
    cleared := if r.state == "COMPLETED" then some .cleared else some .uncleared }

/-- Batch built by `importRevolutCsv`: filter, convert, reverse (the CSV is
old-to-new but `_populateImportIds` wants new-to-old), populate ids.  This is
the batch handed to `_createYnabTransactions`; note the source performs no
second reversal after id assignment. -/
def importRevolutCsv (account_id : String) (rows : List RevolutRow) : List NewTransaction :=
  populateImportIds (((rows.filter revolutKeep).map (revolutRowToTxn account_id)).reverse)

/-- Python `datetime` of a fetched email: its calendar date plus an absolute
timestamp in whole seconds (the timestamp is used only via subtraction and
comparison against the one-minute window). -/
structure DateTime where
  cal : Date
  secs : Int
deriving DecidableEq

/-- Classification of a notification payload by the three regular expressions
`UBS_CREDIT_CARD_OUTFLOW_REGEXP`, `UBS_CREDIT_CARD_INFLOW_REGEXP` and
`UBS_DEBIT_CARD_REGEXP`.  The patterns are anchored on distinct literal
openings, so each payload matches at most one; the regex-matching layer is
abstracted into this classification.  Amounts are in cents (the captured
two-decimal group, thousands separator stripped); `action` is the captured
`(debited|credited)` group. -/
inductive UbsMessage where
  | creditCardOutflow (amountCents : Nat) (card : String) (payee : String)
  | creditCardInflow (card : String)
  | debitCard (account : String) (action : String) (amountCents : Nat)
  | unrecognized (text : String)
deriving DecidableEq

/-- Model of `Notification = namedtuple('Notification', ['date', 'message'])`,
with the message body already classified. -/
structure Notification where
  date : DateTime
  message : UbsMessage
deriving DecidableEq

/-- Constant `MAX_CREDIT_CARD_TRANSFT_TIMEDELTA = timedelta(minutes=1)`,
expressed in seconds. -/
def MAX_CREDIT_CARD_TRANSFT_TIMEDELTA : Int := 60

/-- Python `abs(nn.date - n.date)`: the absolute timedelta, in seconds. -/
def dtAbsDiff (a b : DateTime) : Int := |a.secs - b.secs|

/-- Companion test of the inflow branch: the neighboring notification parses
as a debit account notification, lies inside the time window and has
direction `debited` (the condition
`p1 and abs(nn.date - n.date) < MAX_CREDIT_CARD_TRANSFT_TIMEDELTA and p1.group(2) == 'debited'`). -/
def companionQualifies (n nn : Notification) : Bool :=
  match nn.message with
  | .debitCard _ action _ =>
      decide (dtAbsDiff nn.date n.date < MAX_CREDIT_CARD_TRANSFT_TIMEDELTA) &&
        action == "debited"
  | _ => false

/-- Amount (cents) recovered from a neighboring notification in the inflow
branch; `0` when the neighbor does not qualify (`debit_sum` keeps its initial
value `0`). -/
def debitSumFrom (n nn : Notification) : Nat :=
  if companionQualifies n nn then
    match nn.message with
    | .debitCard _ _ cents => cents
    | _ => 0
  else 0

/-- Dictionary indexing `account_map[key]` (raising `KeyError` on a missing
key) combined with the subsequent `if not t.account_id: raise KeyError(...)`
check on a falsy (empty) mapped value. -/
def lookupAccount (m : List (String × String)) (key : String) : Except String String :=
  match m.lookup key with
  | none => .error ("KeyError: " ++ key)
  | some v =>
      if v == "" then .error ("KeyError: " ++ key ++ " not specified in account_map")
      else .ok v

/-- First stage of the `debit_sum` computation of the inflow branch: the
amount (cents) recovered from the immediately preceding notification when
one exists and qualifies, else `0`. -/
def inflowDebitSumFirst (ns : List Notification) (i : Nat) (n : Notification) : Nat :=
  if 0 < i then
    match ns.get? (i - 1) with
    | some nn => debitSumFrom n nn
    | none => 0
  else 0

/-- The final `debit_sum` of the inflow branch: when the first stage left it
zero and a following notification exists (`i < len(notifications) - 1`), try
the immediately following notification; otherwise keep the first stage's
value. -/
def inflowDebitSum (ns : List Notification) (i : Nat) (n : Notification) : Nat :=
  if inflowDebitSumFirst ns i n == 0 && decide (i < ns.length - 1) then
    match ns.get? (i + 1) with
    | some nn => debitSumFrom n nn
    | none => 0
  else inflowDebitSumFirst ns i n

/-- Loop body of `importUbsFromEmail`'s conversion loop for the notification
`n` at index `i`:  `ok (some t)` emits a transaction, `ok none` drops the
notification with a warning, `error` models the uncaught `KeyError` for an
unmapped alias. -/
def processNotification (m : List (String × String)) (ns : List Notification) (i : Nat)
    (n : Notification) : Except String (Option NewTransaction) :=
  match n.message with
  | .creditCardOutflow cents card payee =>
      match lookupAccount m card with
      | .error e => .error e
      | .ok acc =>
          .ok (some { account_id := acc, var_date := n.date.cal, payee_name := some payee,
                      amount := -((cents : Int) * 10) })
  | .creditCardInflow card =>
      if 0 < inflowDebitSum ns i n then
        match lookupAccount m card with
        | .error e => .error e
        | .ok acc =>
            .ok (some { account_id := acc, var_date := n.date.cal,
                        amount := (inflowDebitSum ns i n : Int) * 10 })
      else .ok none
  | .debitCard account action cents =>
      match lookupAccount m account with
      | .error e => .error e
      | .ok acc =>
          .ok (some { account_id := acc, var_date := n.date.cal,
                      amount := (if action == "debited" then -(cents : Int) else (cents : Int)) * 10 })
  | .unrecognized _ => .ok none

/-- Conversion loop of `importUbsFromEmail` over indices `i, i + 1, ...` with
`fuel` remaining iterations; an alias error aborts the whole loop. -/
def convertFrom (m : List (String × String)) (ns : List Notification) :
    Nat → Nat → Except String (List NewTransaction)
  | _, 0 => .ok []
  | i, fuel + 1 =>
      match ns.get? i with
      | none => .ok []
      | some n =>
          match processNotification m ns i n with
          | .error e => .error e
          | .ok r =>
              match convertFrom m ns (i + 1) fuel with
              | .error e => .error e
              | .ok rest =>
                  match r with
                  | some t => .ok (t :: rest)
                  | none => .ok rest

/-- The whole conversion loop `for i, n in enumerate(notifications)`. -/
def convertNotifications (m : List (String × String)) (ns : List Notification) :
    Except String (List NewTransaction) :=
  convertFrom m ns 0 ns.length

/-- Post-fetch core of `importUbsFromEmail`: convert all notifications (they
arrive oldest-first from the mail transport), reverse to new-to-old, populate
ids.  `ok` carries the batch handed to `_createYnabTransactions`; `error`
models the uncaught `KeyError`, which aborts before any submission call. -/
def importUbsFromEmailCore (m : List (String × String)) (ns : List Notification) :
    Except String (List NewTransaction) :=
  match convertNotifications m ns with
  | .error e => .error e
  | .ok ts => .ok (populateImportIds ts.reverse)

example :
    importUbsFromEmailCore [("1234", "acc")]
      [{ date := ⟨⟨2025, 1, 1⟩, 1000⟩, message := .debitCard "Personal" "debited" 5000 },
       { date := ⟨⟨2025, 1, 1⟩, 1059⟩, message := .creditCardInflow "1234" }] =
      .error ("KeyError: " ++ "Personal") := by
  rfl

example :
    (importUbsFromEmailCore [("1234", "acc"), ("Personal", "dacc")]
      [{ date := ⟨⟨2025, 1, 1⟩, 1000⟩, message := .debitCard "Personal" "debited" 5000 },
       { date := ⟨⟨2025, 1, 1⟩, 1059⟩, message := .creditCardInflow "1234" }]).map
      (List.map NewTransaction.amount) = .ok [50000, -50000] := by
  rfl

/-- Erase the identifier field; two transactions with equal `eraseId` images
agree on every field other than `import_id`. -/
def eraseId (t : NewTransaction) : NewTransaction := { t with import_id := "" }

theorem length_modifyAt (ts : List NewTransaction) (j : Nat) (f : NewTransaction → NewTransaction) :
    (modifyAt ts j f).length = ts.length := by
  unfold modifyAt
  cases h : ts.get? j <;> simp

theorem get?_modifyAt_ne (ts : List NewTransaction) (j k : Nat) (f : NewTransaction → NewTransaction)
    (h : k ≠ j) : (modifyAt ts j f).get? k = ts.get? k := by
  unfold modifyAt
  cases hj : ts.get? j
  · rfl
  · exact List.get?_set_ne _ _ (Ne.symm h)

theorem get?_modifyAt_eq (ts : List NewTransaction) (j : Nat) (f : NewTransaction → NewTransaction)
    (t : NewTransaction) (h : ts.get? j = some t) : (modifyAt ts j f).get? j = some (f t) := by
  unfold modifyAt
  rw [h, List.get?_set_eq, h]
  rfl

theorem length_assignIds (idxs : List Nat) :
    ∀ (o : Nat) (ts : List NewTransaction), (assignIds o idxs ts).length = ts.length := by
  induction idxs with
  | nil => intro o ts; rfl
  | cons j rest ih =>
      intro o ts
      show (assignIds (o + 1) rest _).length = _
      rw [ih, length_modifyAt]

theorem get?_assignIds_not_mem (idxs : List Nat) :
    ∀ (o : Nat) (ts : List NewTransaction) (k : Nat), k ∉ idxs →
      (assignIds o idxs ts).get? k = ts.get? k := by
  induction idxs with
  | nil => intro o ts k _; rfl
  | cons j rest ih =>
      intro o ts k hk
      rw [List.mem_cons, not_or] at hk
      show (assignIds (o + 1) rest _).get? k = _
      rw [ih _ _ _ hk.2, get?_modifyAt_ne _ _ _ _ hk.1]

theorem get?_assignIds_mem (idxs : List Nat) :
    ∀ (o p : Nat) (ts : List NewTransaction) (j : Nat) (t : NewTransaction),
      idxs.Nodup → idxs.get? p = some j → ts.get? j = some t →
      (assignIds o idxs ts).get? j =
        some { t with import_id := importIdFor t.amount t.var_date (o + p) } := by
  induction idxs with
  | nil => intro o p ts j t _ hp _; simp at hp
  | cons x rest ih =>
      intro o p ts j t hnd hp ht
      have hx : x ∉ rest := (List.nodup_cons.mp hnd).1
      have hnd' : rest.Nodup := (List.nodup_cons.mp hnd).2
      cases p with
      | zero =>
          have hxj : x = j := by simpa using hp
          subst hxj
          show (assignIds (o + 1) rest _).get? x = _
          rw [get?_assignIds_not_mem rest _ _ _ hx, get?_modifyAt_eq _ _ _ _ ht]
          rfl
      | succ q =>
          have hq : rest.get? q = some j := hp
          have hjm : j ∈ rest := List.get?_mem hq
          have hxj : x ≠ j := fun h => hx (h ▸ hjm)
          show (assignIds (o + 1) rest _).get? j = _
          have ht' : (modifyAt ts x fun u =>
              { u with import_id := importIdFor u.amount u.var_date o }).get? j = some t := by
            rw [get?_modifyAt_ne _ _ _ _ (Ne.symm hxj)]
            exact ht
          rw [ih (o + 1) q _ j t hnd' hq ht']
          have harith : o + 1 + q = o + (q + 1) := by omega
          rw [harith]

theorem eget_assignIds (idxs : List Nat) :
    ∀ (o : Nat) (ts : List NewTransaction) (k : Nat),
      ((assignIds o idxs ts).get? k).map eraseId = (ts.get? k).map eraseId := by
  induction idxs with
  | nil => intro o ts k; rfl
  | cons j rest ih =>
      intro o ts k
      show ((assignIds (o + 1) rest _).get? k).map eraseId = _
      rw [ih]
      by_cases hk : k = j
      · subst hk
        cases ht : ts.get? k with
        | none =>
            have hmod : modifyAt ts k (fun u =>
                { u with import_id := importIdFor u.amount u.var_date o }) = ts := by
              unfold modifyAt; rw [ht]
            rw [hmod, ht]
        | some t =>
            rw [get?_modifyAt_eq _ _ _ _ ht]
            rfl
      · rw [get?_modifyAt_ne _ _ _ _ hk]


theorem populateStep_none (ts : List NewTransaction) (i : Nat) (h : ts.get? i = none) :
    populateStep ts i = ts := by
  unfold populateStep
  simp only [h]

theorem populateStep_skip (ts : List NewTransaction) (i : Nat) (t : NewTransaction)
    (h : ts.get? i = some t) (hid : ¬t.import_id = "") : populateStep ts i = ts := by
  unfold populateStep
  simp only [h]
  rw [if_neg hid]

theorem populateStep_assign (ts : List NewTransaction) (i : Nat) (t : NewTransaction)
    (h : ts.get? i = some t) (hid : t.import_id = "") :
    populateStep ts i = assignIds 0 (sameDateAmountIndices ts t).reverse ts := by
  unfold populateStep
  simp only [h]
  rw [if_pos hid]

theorem eget_populateStep (ts : List NewTransaction) (i k : Nat) :
    ((populateStep ts i).get? k).map eraseId = (ts.get? k).map eraseId := by
  cases h : ts.get? i with
  | none => rw [populateStep_none ts i h]
  | some t =>
      by_cases hid : t.import_id = ""
      · rw [populateStep_assign ts i t h hid]
        exact eget_assignIds _ _ _ _
      · rw [populateStep_skip ts i t h hid]

theorem length_populateStep (ts : List NewTransaction) (i : Nat) :
    (populateStep ts i).length = ts.length := by
  cases h : ts.get? i with
  | none => rw [populateStep_none ts i h]
  | some t =>
      by_cases hid : t.import_id = ""
      · rw [populateStep_assign ts i t h hid, length_assignIds]
      · rw [populateStep_skip ts i t h hid]

theorem importIdFor_ne_empty (a : Int) (d : Date) (o : Nat) : importIdFor a d o ≠ "" := by
  intro h
  have hl := congrArg String.length h
  unfold importIdFor at hl
  simp only [String.length_append, String.length_empty] at hl
  have h9 : ("UBS2YNAB:" : String).length = 9 := by decide
  omega

/-- Helper for the loop invariant of `populateAux`: some index `k < i` shares
index `j`'s date and amount in the original list `ts` and was originally
unassigned (so the group containing `j` has already been written). -/
def triggerBeforeB (ts : List NewTransaction) (i j : Nat) : Bool :=
  (List.range i).any fun k =>
    match ts.get? k, ts.get? j with
    | some tk, some tj =>
        decide (tk.var_date = tj.var_date ∧ tk.amount = tj.amount ∧ tk.import_id = "")
    | _, _ => false

/-- Number of strictly later indices (older transactions, in the newest-first
convention) inside the `(d, a)` group: the ordinal the assigner gives `j`. -/
def laterGroupSize (ts : List NewTransaction) (d : Date) (a : Int) (j : Nat) : Nat :=
  ((groupIndices ts d a).filter fun k => decide (j < k)).length

/-- Whether some member of the `(d, a)` group is unassigned. -/
def groupHasEmpty (ts : List NewTransaction) (d : Date) (a : Int) : Bool :=
  ts.any fun t => decide (t.var_date = d ∧ t.amount = a ∧ t.import_id = "")

/-- The transaction `t` (sitting at index `j` of `ts`) after the assigner has
written its group: only `import_id` changes, to the group ordinal of `j`. -/
def assignedVersion (ts : List NewTransaction) (t : NewTransaction) (j : Nat) : NewTransaction :=
  { t with import_id := importIdFor t.amount t.var_date (laterGroupSize ts t.var_date t.amount j) }

/-- Loop invariant of `populateAux` over the original list `ts`: after the
first `i` iterations the state has every index whose group was triggered
rewritten to its `assignedVersion`, everything else untouched. -/
def PopInv (ts : List NewTransaction) (i : Nat) (cur : List NewTransaction) : Prop :=
  cur.length = ts.length ∧
  ∀ j t, ts.get? j = some t →
    cur.get? j = some (if triggerBeforeB ts i j then assignedVersion ts t j else t)

theorem triggerBeforeB_eq_true (ts : List NewTransaction) (i j : Nat) :
    triggerBeforeB ts i j = true ↔
      ∃ k, k < i ∧ ∃ tk tj, ts.get? k = some tk ∧ ts.get? j = some tj ∧
        tk.var_date = tj.var_date ∧ tk.amount = tj.amount ∧ tk.import_id = "" := by
  unfold triggerBeforeB
  rw [List.any_eq_true]
  constructor
  · rintro ⟨k, hk, hp⟩
    rw [List.mem_range] at hk
    cases hgk : ts.get? k with
    | none => rw [hgk] at hp; simp at hp
    | some tk =>
        cases hgj : ts.get? j with
        | none => rw [hgk, hgj] at hp; simp at hp
        | some tj =>
            rw [hgk, hgj] at hp
            simp only [decide_eq_true_eq] at hp
            exact ⟨k, hk, tk, tj, hgk, rfl, hp.1, hp.2.1, hp.2.2⟩
  · rintro ⟨k, hk, tk, tj, hgk, hgj, hd, ha, he⟩
    refine ⟨k, List.mem_range.mpr hk, ?_⟩
    rw [hgk, hgj]
    simp only [decide_eq_true_eq]
    exact ⟨hd, ha, he⟩

theorem triggerBeforeB_succ (ts : List NewTransaction) (i j : Nat) :
    triggerBeforeB ts (i + 1) j = true ↔
      (triggerBeforeB ts i j = true ∨
        ∃ ti tj, ts.get? i = some ti ∧ ts.get? j = some tj ∧
          ti.var_date = tj.var_date ∧ ti.amount = tj.amount ∧ ti.import_id = "") := by
  rw [triggerBeforeB_eq_true, triggerBeforeB_eq_true]
  constructor
  · rintro ⟨k, hk, rest⟩
    rcases Nat.lt_succ_iff_lt_or_eq.mp hk with h | h
    · exact Or.inl ⟨k, h, rest⟩
    · subst h; exact Or.inr rest
  · rintro (⟨k, hk, rest⟩ | rest)
    · exact ⟨k, Nat.lt_succ_of_lt hk, rest⟩
    · exact ⟨i, Nat.lt_succ_self i, rest⟩

theorem mem_groupIndices (ts : List NewTransaction) (d : Date) (a : Int) (j : Nat) :
    j ∈ groupIndices ts d a ↔
      ∃ t, ts.get? j = some t ∧ t.var_date = d ∧ t.amount = a := by
  unfold groupIndices
  rw [List.mem_filter, List.mem_range]
  constructor
  · rintro ⟨hj, hp⟩
    cases hgj : ts.get? j with
    | none => rw [hgj] at hp; simp at hp
    | some t =>
        rw [hgj] at hp
        simp only [decide_eq_true_eq] at hp
        exact ⟨t, rfl, hp.1, hp.2⟩
  · rintro ⟨t, hgj, hd, ha⟩
    have hjlt : j < ts.length := by
      by_contra hge
      rw [List.get?_len_le (Nat.le_of_not_lt hge)] at hgj
      exact Option.noConfusion hgj
    refine ⟨hjlt, ?_⟩
    rw [hgj]
    simp only [decide_eq_true_eq]
    exact ⟨hd, ha⟩

theorem pairwise_groupIndices (ts : List NewTransaction) (d : Date) (a : Int) :
    (groupIndices ts d a).Pairwise (· < ·) :=
  List.Pairwise.sublist (List.filter_sublist _) (List.pairwise_lt_range _)

theorem nodup_groupIndices (ts : List NewTransaction) (d : Date) (a : Int) :
    (groupIndices ts d a).Nodup :=
  List.Pairwise.imp Nat.ne_of_lt (pairwise_groupIndices ts d a)

theorem filter_gt_length_of_pairwise (g : List Nat) (hg : g.Pairwise (· < ·)) :
    ∀ (p j : Nat), g.get? p = some j →
      (g.filter fun k => decide (j < k)).length = g.length - 1 - p := by
  induction g with
  | nil => intro p j h; simp at h
  | cons x rest ih =>
      intro p j h
      have hx : ∀ y ∈ rest, x < y := (List.pairwise_cons.mp hg).1
      have hrest : rest.Pairwise (· < ·) := (List.pairwise_cons.mp hg).2
      cases p with
      | zero =>
          have hxj : x = j := by simpa using h
          subst hxj
          rw [List.filter_cons]
          rw [if_neg (by simp)]
          rw [List.filter_eq_self.mpr fun y hy => by
            simp only [decide_eq_true_eq]
            exact hx y hy]
          simp
      | succ q =>
          have hq : rest.get? q = some j := h
          have hjm : j ∈ rest := List.get?_mem hq
          have hxj : x < j := hx j hjm
          rw [List.filter_cons]
          rw [if_neg (by simp; omega)]
          rw [ih hrest q j hq]
          have hqlen : q < rest.length := by
            rcases List.get?_eq_some.mp hq with ⟨hlt, _⟩
            exact hlt
          simp only [List.length_cons]
          omega

theorem eget_of_popInv (ts : List NewTransaction) (i : Nat) (cur : List NewTransaction)
    (hinv : PopInv ts i cur) (k : Nat) :
    (cur.get? k).map eraseId = (ts.get? k).map eraseId := by
  obtain ⟨hlen, hget⟩ := hinv
  cases hts : ts.get? k with
  | none =>
      have hcur : cur.get? k = none := by
        rw [List.get?_eq_none] at hts ⊢
        rw [hlen]; exact hts
      rw [hcur]
  | some t =>
      rw [hget k t hts]
      by_cases htr : triggerBeforeB ts i k = true
      · rw [if_pos htr]; rfl
      · rw [if_neg htr]

theorem groupIndices_of_popInv (ts : List NewTransaction) (cur : List NewTransaction) (i : Nat)
    (hinv : PopInv ts i cur) (d : Date) (a : Int) :
    groupIndices cur d a = groupIndices ts d a := by
  unfold groupIndices
  rw [hinv.1]
  apply List.filter_congr
  intro k _
  have h := eget_of_popInv ts i cur hinv k
  cases hc : cur.get? k with
  | none =>
      rw [hc] at h
      cases hts : ts.get? k with
      | none => simp [hc, hts]
      | some t => rw [hts] at h; simp at h
  | some u =>
      rw [hc] at h
      cases hts : ts.get? k with
      | none => rw [hts] at h; simp at h
      | some t =>
          rw [hts] at h
          simp only [Option.map_some'] at h
          have hu : eraseId u = eraseId t := Option.some.inj h
          have hd : u.var_date = t.var_date := by
            have hc2 := congrArg NewTransaction.var_date hu
            exact hc2
          have ha : u.amount = t.amount := by
            have hc2 := congrArg NewTransaction.amount hu
            exact hc2
          simp only [hc, hts, hd, ha]

theorem triggerBeforeB_succ_of_not_new (ts : List NewTransaction) (i j : Nat)
    (hnew : ∀ ti tj, ts.get? i = some ti → ts.get? j = some tj →
      ti.var_date = tj.var_date → ti.amount = tj.amount → ti.import_id = "" → False) :
    triggerBeforeB ts (i + 1) j = triggerBeforeB ts i j := by
  rw [Bool.eq_iff_iff, triggerBeforeB_succ]
  constructor
  · rintro (h | ⟨ti, tj, hgi, hgj, hd, ha, he⟩)
    · exact h
    · exact (hnew ti tj hgi hgj hd ha he).elim
  · exact Or.inl

theorem triggerBeforeB_succ_of_triggered (ts : List NewTransaction) (i j : Nat)
    (htri : triggerBeforeB ts i i = true) :
    triggerBeforeB ts (i + 1) j = triggerBeforeB ts i j := by
  rw [Bool.eq_iff_iff, triggerBeforeB_succ]
  constructor
  · rintro (h | ⟨ti, tj, hgi, hgj, hd, ha, he⟩)
    · exact h
    · rcases (triggerBeforeB_eq_true ts i i).mp htri with
        ⟨k, hk, tk, ti2, hgk, hgi2, hkd, hka, hke⟩
      rw [hgi] at hgi2
      have h2 : ti = ti2 := Option.some.inj hgi2
      refine (triggerBeforeB_eq_true ts i j).mpr ⟨k, hk, tk, tj, hgk, hgj, ?_, ?_, hke⟩
      · rw [hkd, ← h2]; exact hd
      · rw [hka, ← h2]; exact ha
  · exact Or.inl

theorem popInv_step (ts : List NewTransaction) (i : Nat) (cur : List NewTransaction)
    (hinv : PopInv ts i cur) : PopInv ts (i + 1) (populateStep cur i) := by
  obtain ⟨hlen, hget⟩ := hinv
  cases hti : ts.get? i with
  | none =>
      have hci : cur.get? i = none := by
        rw [List.get?_eq_none] at hti ⊢
        rw [hlen]; exact hti
      rw [populateStep_none cur i hci]
      refine ⟨hlen, fun j t hj => ?_⟩
      rw [hget j t hj]
      rw [triggerBeforeB_succ_of_not_new ts i j fun ti _ hgi _ _ _ _ => by
        rw [hti] at hgi; exact Option.noConfusion hgi]
  | some ti =>
      have hci : cur.get? i = some (if triggerBeforeB ts i i then assignedVersion ts ti i else ti) :=
        hget i ti hti
      by_cases htri : triggerBeforeB ts i i = true
      · rw [if_pos htri] at hci
        have hskip : populateStep cur i = cur :=
          populateStep_skip cur i _ hci fun hempty => importIdFor_ne_empty _ _ _ hempty
        rw [hskip]
        refine ⟨hlen, fun j t hj => ?_⟩
        rw [hget j t hj, triggerBeforeB_succ_of_triggered ts i j htri]
      · rw [if_neg htri] at hci
        by_cases hid : ti.import_id = ""
        · rw [populateStep_assign cur i ti hci hid]
          have hgidx : sameDateAmountIndices cur ti = groupIndices ts ti.var_date ti.amount :=
            groupIndices_of_popInv ts cur i ⟨hlen, hget⟩ _ _
          rw [hgidx]
          refine ⟨by rw [length_assignIds, hlen], fun j t hj => ?_⟩
          by_cases hjg : j ∈ groupIndices ts ti.var_date ti.amount
          · -- j belongs to the triggered group and is (re)written
            rcases (mem_groupIndices ts ti.var_date ti.amount j).mp hjg with ⟨t', hj', hd', ha'⟩
            rw [hj] at hj'
            have ht' : t = t' := Option.some.inj hj'
            subst ht'
            have hjrev : j ∈ (groupIndices ts ti.var_date ti.amount).reverse :=
              List.mem_reverse.mpr hjg
            rcases List.mem_iff_get?.mp hjrev with ⟨p, hp⟩
            have hplt : p < (groupIndices ts ti.var_date ti.amount).length := by
              rcases List.get?_eq_some.mp hp with ⟨hlt, _⟩
              rw [List.length_reverse] at hlt
              exact hlt
            have hnodup : (groupIndices ts ti.var_date ti.amount).reverse.Nodup := by
              rw [List.nodup_reverse]
              exact nodup_groupIndices ts _ _
            have hcj := hget j t hj
            rw [get?_assignIds_mem _ 0 p cur j _ hnodup hp hcj]
            -- identify the written record
            have hover :
                ({ (if triggerBeforeB ts i j then assignedVersion ts t j else t) with
                    import_id :=
                      importIdFor (if triggerBeforeB ts i j then assignedVersion ts t j else t).amount
                        (if triggerBeforeB ts i j then assignedVersion ts t j else t).var_date
                        (0 + p) } : NewTransaction) =
                  { t with import_id := importIdFor t.amount t.var_date p } := by
              by_cases hb : triggerBeforeB ts i j = true
              · rw [if_pos hb, Nat.zero_add]; rfl
              · rw [if_neg hb, Nat.zero_add]
            rw [hover]
            -- ordinal arithmetic: position p in the reversed group is the group ordinal
            have hgq : (groupIndices ts ti.var_date ti.amount).get?
                ((groupIndices ts ti.var_date ti.amount).length - 1 - p) = some j := by
              rw [← List.get?_reverse hplt]
              exact hp
            have hfl := filter_gt_length_of_pairwise _ (pairwise_groupIndices ts ti.var_date ti.amount)
              _ j hgq
            have hord : laterGroupSize ts t.var_date t.amount j = p := by
              unfold laterGroupSize
              rw [hd', ha', hfl]
              omega
            have htrig : triggerBeforeB ts (i + 1) j = true :=
              (triggerBeforeB_succ ts i j).mpr
                (Or.inr ⟨ti, t, hti, hj, hd'.symm, ha'.symm, hid⟩)
            rw [htrig]
            unfold assignedVersion
            rw [if_pos rfl, hord]
          · -- j is outside the group and untouched
            have hjrev : j ∉ (groupIndices ts ti.var_date ti.amount).reverse := fun h =>
              hjg (List.mem_reverse.mp h)
            rw [get?_assignIds_not_mem _ _ _ _ hjrev]
            rw [hget j t hj]
            rw [triggerBeforeB_succ_of_not_new ts i j fun ti2 tj hgi hgj hd ha _ => by
              rw [hti] at hgi
              have h2 : ti = ti2 := Option.some.inj hgi
              rw [hj] at hgj
              have h3 : t = tj := Option.some.inj hgj
              exact hjg ((mem_groupIndices ts ti.var_date ti.amount j).mpr
                ⟨t, hj, by rw [h3, ← hd, ← h2], by rw [h3, ← ha, ← h2]⟩)]
        · rw [populateStep_skip cur i ti hci hid]
          refine ⟨hlen, fun j t hj => ?_⟩
          rw [hget j t hj]
          rw [triggerBeforeB_succ_of_not_new ts i j fun ti2 _ hgi _ _ _ he => by
            rw [hti] at hgi
            have h2 : ti = ti2 := Option.some.inj hgi
            rw [← h2] at he
            exact hid he]

theorem popInv_zero (ts : List NewTransaction) : PopInv ts 0 ts := by
  refine ⟨rfl, fun j t hj => ?_⟩
  have h0 : triggerBeforeB ts 0 j = false := rfl
  rw [h0]
  simpa using hj

theorem popInv_populateAux : ∀ (fuel i : Nat) (cur ts : List NewTransaction),
    PopInv ts i cur → PopInv ts (i + fuel) (populateAux i fuel cur) := by
  intro fuel
  induction fuel with
  | zero => intro i cur ts h; simpa using h
  | succ f ih =>
      intro i cur ts h
      have h2 := ih (i + 1) (populateStep cur i) ts (popInv_step ts i cur h)
      have harith : i + (f + 1) = i + 1 + f := by omega
      rw [harith]
      exact h2

theorem popInv_final (ts : List NewTransaction) : PopInv ts ts.length (populateImportIds ts) := by
  have h := popInv_populateAux ts.length 0 ts ts (popInv_zero ts)
  rw [Nat.zero_add] at h
  exact h

theorem length_populateImportIds (ts : List NewTransaction) :
    (populateImportIds ts).length = ts.length :=
  (popInv_final ts).1

theorem triggerBeforeB_length (ts : List NewTransaction) (j : Nat) (t : NewTransaction)
    (hj : ts.get? j = some t) :
    triggerBeforeB ts ts.length j = groupHasEmpty ts t.var_date t.amount := by
  rw [Bool.eq_iff_iff, triggerBeforeB_eq_true]
  unfold groupHasEmpty
  rw [List.any_eq_true]
  constructor
  · rintro ⟨k, _, tk, tj, hgk, hgj, hd, ha, he⟩
    rw [hj] at hgj
    have h2 : tj = t := (Option.some.inj hgj).symm
    subst h2
    refine ⟨tk, List.get?_mem hgk, ?_⟩
    simp only [decide_eq_true_eq]
    exact ⟨hd, ha, he⟩
  · rintro ⟨u, hu, hp⟩
    simp only [decide_eq_true_eq] at hp
    rcases List.mem_iff_get?.mp hu with ⟨k, hk⟩
    have hklt : k < ts.length := by
      rcases List.get?_eq_some.mp hk with ⟨hlt, _⟩
      exact hlt
    exact ⟨k, hklt, u, t, hk, hj, hp.1, hp.2.1, hp.2.2⟩

/-- Pointwise characterization of `_populateImportIds`: a transaction is
rewritten (to its group ordinal identifier) exactly when its
`(var_date, amount)` group contains some unassigned member; otherwise it is
left untouched. -/
theorem populate_get? (ts : List NewTransaction) (j : Nat) (t : NewTransaction)
    (hj : ts.get? j = some t) :
    (populateImportIds ts).get? j =
      some (if groupHasEmpty ts t.var_date t.amount then assignedVersion ts t j else t) := by
  have h := (popInv_final ts).2 j t hj
  rw [triggerBeforeB_length ts j t hj] at h
  exact h

theorem laterGroupSize_of_reverse_get? (ts : List NewTransaction) (d : Date) (a : Int)
    (p j : Nat) (hp : (groupIndices ts d a).reverse.get? p = some j) :
    laterGroupSize ts d a j = p := by
  have hplt : p < (groupIndices ts d a).length := by
    rcases List.get?_eq_some.mp hp with ⟨hlt, _⟩
    rw [List.length_reverse] at hlt
    exact hlt
  have hgq : (groupIndices ts d a).get? ((groupIndices ts d a).length - 1 - p) = some j := by
    rw [← List.get?_reverse hplt]
    exact hp
  have hfl := filter_gt_length_of_pairwise _ (pairwise_groupIndices ts d a) _ j hgq
  unfold laterGroupSize
  rw [hfl]
  omega

/-- C1: for a fresh batch (all identifiers empty, i.e. "absent until
assignment") given to the Assigner in newest-first order, within every
`(value_date, amount)` group the assigned identifiers carry ordinals that are
exactly the positions in the reversed (oldest-first) group index list: the
oldest member receives ordinal 0 and each subsequent newer member the next
integer, so the ordinals form a contiguous zero-based sequence with no gaps
or repeats. -/
theorem c1_assigner_ordinals_contiguous (ts : List NewTransaction)
    (hempty : ∀ t ∈ ts, t.import_id = "") (d : Date) (a : Int) (p j : Nat)
    (hp : (groupIndices ts d a).reverse.get? p = some j) :
    (populateImportIds ts).get? j =
      (ts.get? j).map fun t => { t with import_id := importIdFor t.amount t.var_date p } := by
  have hjg : j ∈ groupIndices ts d a := List.mem_reverse.mp (List.get?_mem hp)
  rcases (mem_groupIndices ts d a j).mp hjg with ⟨t, hj, hd, ha⟩
  rw [populate_get? ts j t hj, hj]
  have hge : groupHasEmpty ts t.var_date t.amount = true := by
    unfold groupHasEmpty
    rw [List.any_eq_true]
    refine ⟨t, List.get?_mem hj, ?_⟩
    have he := hempty t (List.get?_mem hj)
    simp [he]
  rw [if_pos hge]
  unfold assignedVersion
  have hord : laterGroupSize ts t.var_date t.amount j = p := by
    rw [hd, ha]
    exact laterGroupSize_of_reverse_get? ts d a p j hp
  rw [hord]
  rfl

/-- Witness for C1 at a concrete two-element batch: the older transaction
(index 1, newest-first order) receives ordinal 0. -/
theorem c1_assigner_ordinals_contiguous_witness :
    (populateImportIds
      [{ var_date := ⟨2025, 1, 1⟩, amount := 1000 },
       { var_date := ⟨2025, 1, 1⟩, amount := 1000 }]).get? 1 =
      (([{ var_date := ⟨2025, 1, 1⟩, amount := 1000 },
         { var_date := ⟨2025, 1, 1⟩, amount := 1000 }] : List NewTransaction).get? 1).map
        fun t => { t with import_id := importIdFor t.amount t.var_date 0 } :=
  c1_assigner_ordinals_contiguous _ (by decide) ⟨2025, 1, 1⟩ 1000 0 1 (by decide)

/-- C6: the Assigner is idempotent — over a batch in which every transaction
already carries a (non-empty) identifier it changes nothing at all. -/
theorem c6_assigner_idempotent (ts : List NewTransaction)
    (hfull : ∀ t ∈ ts, t.import_id ≠ "") :
    populateImportIds ts = ts := by
  apply List.ext_get?
  intro n
  cases hn : ts.get? n with
  | none =>
      rw [List.get?_eq_none] at hn ⊢
      rw [length_populateImportIds]
      exact hn
  | some t =>
      rw [populate_get? ts n t hn]
      have hge : groupHasEmpty ts t.var_date t.amount = false := by
        unfold groupHasEmpty
        rw [List.any_eq_false]
        intro u hu
        simp only [decide_eq_true_eq]
        rintro ⟨_, _, he⟩
        exact hfull u hu he
      rw [if_neg (by simp [hge])]

/-- Witness for C6: a fully-assigned two-element batch is returned verbatim. -/
theorem c6_assigner_idempotent_witness :
    populateImportIds
      [{ var_date := ⟨2025, 1, 1⟩, amount := 1000,
         import_id := "UBS2YNAB:1000:2025-01-01:1" },
       { var_date := ⟨2025, 1, 1⟩, amount := 1000,
         import_id := "UBS2YNAB:1000:2025-01-01:0" }] =
      [{ var_date := ⟨2025, 1, 1⟩, amount := 1000,
         import_id := "UBS2YNAB:1000:2025-01-01:1" },
       { var_date := ⟨2025, 1, 1⟩, amount := 1000,
         import_id := "UBS2YNAB:1000:2025-01-01:0" }] :=
  c6_assigner_idempotent _ (by decide)

/-- C4 counterexample: the pre-assigned transaction (identifier "X") at
index 0 shares its `(value_date, amount)` pair with the still-unassigned
index 1; running the Assigner overwrites the pre-assigned identifier with
"UBS2YNAB:1000:2025-01-01:1", so an already-assigned transaction IS revisited
when a group mate is unassigned — the claim fails at this input. -/
theorem c4_preassigned_overwritten_counterexample :
    (populateImportIds
      [{ var_date := ⟨2025, 1, 1⟩, amount := 1000, import_id := "X" },
       { var_date := ⟨2025, 1, 1⟩, amount := 1000 }]).map NewTransaction.import_id =
      ["UBS2YNAB:1000:2025-01-01:1", "UBS2YNAB:1000:2025-01-01:0"] ∧
    ("UBS2YNAB:1000:2025-01-01:1" : String) ≠ "X" := by
  decide

/-- C4 (amended): a transaction whose identifier is already non-empty is left
completely unchanged by the Assigner provided every transaction sharing its
`(value_date, amount)` pair is also already assigned.  (Without that proviso
the group is rewritten wholesale, see the counterexample.) -/
theorem c4_amended_preassigned_unchanged (ts : List NewTransaction) (j : Nat)
    (t : NewTransaction) (hj : ts.get? j = some t) (hne : t.import_id ≠ "")
    (hgroup : ∀ u ∈ ts, u.var_date = t.var_date → u.amount = t.amount → u.import_id ≠ "") :
    (populateImportIds ts).get? j = some t := by
  rw [populate_get? ts j t hj]
  have hge : groupHasEmpty ts t.var_date t.amount = false := by
    unfold groupHasEmpty
    rw [List.any_eq_false]
    intro u hu
    simp only [decide_eq_true_eq]
    rintro ⟨hd, ha, he⟩
    exact hgroup u hu hd ha he
  rw [if_neg (by simp [hge])]

/-- Witness for the amended C4: a pre-assigned transaction whose group
contains no unassigned member survives the run untouched. -/
theorem c4_amended_preassigned_unchanged_witness :
    (populateImportIds
      [{ var_date := ⟨2025, 1, 1⟩, amount := 1000, import_id := "X" },
       { var_date := ⟨2025, 1, 2⟩, amount := 1000 }]).get? 0 =
      some { var_date := ⟨2025, 1, 1⟩, amount := 1000, import_id := "X" } :=
  c4_amended_preassigned_unchanged _ 0 _ rfl (by decide) (by decide)

theorem map_populateImportIds {α : Type} (f : NewTransaction → α)
    (hf : ∀ (t : NewTransaction) (s : String), f { t with import_id := s } = f t)
    (ts : List NewTransaction) :
    (populateImportIds ts).map f = ts.map f := by
  apply List.ext_get?
  intro n
  rw [List.get?_map, List.get?_map]
  cases hn : ts.get? n with
  | none =>
      have h2 : (populateImportIds ts).get? n = none := by
        rw [List.get?_eq_none] at hn ⊢
        rw [length_populateImportIds]
        exact hn
      rw [h2]
  | some t =>
      rw [populate_get? ts n t hn]
      by_cases hb : groupHasEmpty ts t.var_date t.amount = true
      · rw [if_pos hb]
        show some (f (assignedVersion ts t n)) = some (f t)
        exact congrArg some (hf t _)
      · rw [if_neg hb]

/-- C3 (amended): `importRevolutCsv` reverses the kept transactions exactly
once — from the CSV's native oldest-first order to the newest-first order the
Assigner expects — and the finished batch handed to the submission boundary
stays in that newest-first order: its dates are the kept rows' dates
reversed, with no second reversal back to chronological order. -/
theorem c3_amended_single_reversal (account_id : String) (rows : List RevolutRow) :
    (importRevolutCsv account_id rows).map (fun t => t.var_date) =
      ((rows.filter revolutKeep).map fun r => r.startedDate).reverse := by
  unfold importRevolutCsv
  rw [map_populateImportIds (fun t => t.var_date) (fun _ _ => rfl)]
  rw [List.map_reverse, List.map_map]
  rfl

/-- C3 counterexample: two kept rows arrive oldest-first (dated 2025-01-01
then 2025-01-02); the finished batch carries dates
[2025-01-02, 2025-01-01] — newest-first — and not the oldest-first order
[2025-01-01, 2025-01-02] the claim promises after its alleged second
reversal. -/
theorem c3_no_second_reversal_counterexample :
    ((importRevolutCsv "acc"
      [{ product := "Current", rowType := "Payment", startedDate := ⟨2025, 1, 1⟩,
         description := "First", amountCents := -1000, feeCents := 0, state := "COMPLETED" },
       { product := "Current", rowType := "Payment", startedDate := ⟨2025, 1, 2⟩,
         description := "Second", amountCents := -2000, feeCents := 0,
         state := "COMPLETED" }]).map fun t => t.var_date) =
      [⟨2025, 1, 2⟩, ⟨2025, 1, 1⟩] ∧
    ([(⟨2025, 1, 2⟩ : Date), ⟨2025, 1, 1⟩] ≠ [⟨2025, 1, 1⟩, ⟨2025, 1, 2⟩]) := by
  decide

/-- C8: every kept free-form CSV row yields a transaction whose amount in
minor units is `(amount − fee)` — the fee subtracted from the signed amount
regardless of flow direction.  (`10 * cents` is the exact minor-unit value of
a two-decimal field.) -/
theorem c8_fee_always_subtracted (account_id : String) (rows : List RevolutRow)
    (p : Nat) (r : RevolutRow) (hp : (rows.filter revolutKeep).get? p = some r) :
    ((importRevolutCsv account_id rows).get?
        ((rows.filter revolutKeep).length - 1 - p)).map (fun t => t.amount) =
      some (10 * r.amountCents - 10 * r.feeCents) := by
  have hplt : p < (rows.filter revolutKeep).length := by
    rcases List.get?_eq_some.mp hp with ⟨hlt, _⟩
    exact hlt
  unfold importRevolutCsv
  have hlen : ((rows.filter revolutKeep).map (revolutRowToTxn account_id)).length =
      (rows.filter revolutKeep).length := List.length_map _ _
  have hq : (rows.filter revolutKeep).length - 1 - p <
      ((rows.filter revolutKeep).map (revolutRowToTxn account_id)).length := by
    rw [hlen]; omega
  have harith : (rows.filter revolutKeep).length - 1 -
      ((rows.filter revolutKeep).length - 1 - p) = p := by omega
  rw [← List.get?_map, map_populateImportIds (fun t => t.amount) (fun _ _ => rfl),
    List.get?_map, List.get?_reverse hq, hlen, harith, List.get?_map, hp]
  rfl

/-- Witness for C8: a row with amount −50.00 and fee 2.00 yields
`amount_minor = −52000`. -/
theorem c8_fee_always_subtracted_witness :
    ((importRevolutCsv "acc"
      [{ product := "Current", rowType := "Payment", startedDate := ⟨2025, 1, 1⟩,
         description := "Card payment", amountCents := -5000, feeCents := 200,
         state := "COMPLETED" }]).get? 0).map (fun t => t.amount) = some (-52000) := by
  have h := c8_fee_always_subtracted "acc"
    [{ product := "Current", rowType := "Payment", startedDate := ⟨2025, 1, 1⟩,
       description := "Card payment", amountCents := -5000, feeCents := 200,
       state := "COMPLETED" }] 0
    { product := "Current", rowType := "Payment", startedDate := ⟨2025, 1, 1⟩,
      description := "Card payment", amountCents := -5000, feeCents := 200,
      state := "COMPLETED" } (by decide)
  have hidx : (List.filter revolutKeep
      [{ product := "Current", rowType := "Payment", startedDate := ⟨2025, 1, 1⟩,
         description := "Card payment", amountCents := -5000, feeCents := 200,
         state := "COMPLETED" }]).length - 1 - 0 = 0 := by decide
  rw [hidx] at h
  have hval : (10 * (-5000 : Int) - 10 * 200) = -52000 := by decide
  rw [hval] at h
  exact h

/-- C10: a fixed-header (credit-style) CSV row whose explicit `Credit` and
`Debit` fields are both empty produces an uncleared transaction, whatever its
payee text is — the uncleared marking covers every sign-inferred row, not
only incoming-transfer rows. -/
theorem c10_sign_guessed_rows_uncleared (account_id : String) (rows : List CreditRow)
    (j : Nat) (r : CreditRow)
    (hj : (rows.takeWhile fun row => !(row.accountNumber == "")).get? j = some r)
    (hc : r.credit = none) (hd : r.debit = none) :
    ((importCreditCsv account_id rows).get? j).map (fun t => t.cleared) =
      some (some Cleared.uncleared) := by
  unfold importCreditCsv
  rw [← List.get?_map, map_populateImportIds (fun t => t.cleared) (fun _ _ => rfl),
    List.get?_map, List.get?_map, hj]
  simp only [Option.map_some', creditRowToTxn, hc, hd]

/-- Witness for C10: a sign-inferred row whose payee is exactly the
incoming-transfer marker is still uncleared. -/
theorem c10_sign_guessed_rows_uncleared_witness :
    ((importCreditCsv "acc"
      [{ accountNumber := "ACC1", purchaseDate := ⟨2025, 1, 1⟩,
         bookingText := "TRANSFER FROM ACCOUNT", credit := none, debit := none,
         amountCents := 10000 }]).get? 0).map (fun t => t.cleared) =
      some (some Cleared.uncleared) :=
  c10_sign_guessed_rows_uncleared "acc"
    [{ accountNumber := "ACC1", purchaseDate := ⟨2025, 1, 1⟩,
       bookingText := "TRANSFER FROM ACCOUNT", credit := none, debit := none,
       amountCents := 10000 }] 0
    { accountNumber := "ACC1", purchaseDate := ⟨2025, 1, 1⟩,
      bookingText := "TRANSFER FROM ACCOUNT", credit := none, debit := none,
      amountCents := 10000 } (by decide) rfl rfl

/-- C2: a neighboring notification that parses as a debit-account
notification with direction `debited` qualifies as a correlation companion
of notification `n` exactly when the absolute timestamp difference is
strictly below the 60-second window — so a companion at 59 seconds
qualifies and one at exactly 60 seconds does not. -/
theorem c2_companion_window_strict (n nn : Notification) (acct : String) (cents : Nat)
    (h : nn.message = .debitCard acct "debited" cents) :
    companionQualifies n nn = true ↔
      dtAbsDiff nn.date n.date < MAX_CREDIT_CARD_TRANSFT_TIMEDELTA := by
  unfold companionQualifies
  simp only [h]
  simp

/-- Witness for C2: at 59 seconds the companion qualifies; at exactly 60
seconds it does not. -/
theorem c2_companion_window_strict_witness :
    companionQualifies
        { date := ⟨⟨2025, 1, 1⟩, 1000⟩, message := .creditCardInflow "1234" }
        { date := ⟨⟨2025, 1, 1⟩, 1059⟩, message := .debitCard "Personal" "debited" 5000 } =
      true ∧
    companionQualifies
        { date := ⟨⟨2025, 1, 1⟩, 1000⟩, message := .creditCardInflow "1234" }
        { date := ⟨⟨2025, 1, 1⟩, 1060⟩, message := .debitCard "Personal" "debited" 5000 } =
      false :=
  ⟨(c2_companion_window_strict _ _ "Personal" 5000 rfl).mpr (by decide), by decide⟩

theorem debitSumFrom_eq_zero (n nn : Notification) (h : companionQualifies n nn = false) :
    debitSumFrom n nn = 0 := by
  unfold debitSumFrom
  simp [h]

/-- Helper: an unqualified (or missing) preceding neighbor leaves the first
stage of `debit_sum` at zero. -/
theorem inflowDebitSumFirst_eq_zero (ns : List Notification) (i : Nat) (n : Notification)
    (hprev : ∀ nn, 0 < i → ns.get? (i - 1) = some nn → companionQualifies n nn = false) :
    inflowDebitSumFirst ns i n = 0 := by
  unfold inflowDebitSumFirst
  by_cases h0 : 0 < i
  · rw [if_pos h0]
    cases hg : ns.get? (i - 1) with
    | none => rfl
    | some nn => exact debitSumFrom_eq_zero n nn (hprev nn h0 hg)
  · rw [if_neg h0]

/-- Helper for C5 and C7: when neither existing neighbor qualifies as a
companion, the recovered `debit_sum` is zero. -/
theorem inflowDebitSum_eq_zero (ns : List Notification) (i : Nat) (n : Notification)
    (hprev : ∀ nn, 0 < i → ns.get? (i - 1) = some nn → companionQualifies n nn = false)
    (hnext : ∀ nn, ns.get? (i + 1) = some nn → companionQualifies n nn = false) :
    inflowDebitSum ns i n = 0 := by
  have h1 := inflowDebitSumFirst_eq_zero ns i n hprev
  have hinner : (match ns.get? (i + 1) with
      | some nn => debitSumFrom n nn
      | none => 0) = 0 := by
    cases hg : ns.get? (i + 1) with
    | none => rfl
    | some nn => exact debitSumFrom_eq_zero n nn (hnext nn hg)
  unfold inflowDebitSum
  rw [h1]
  by_cases hlt : i < ns.length - 1
  · rw [if_pos (by simp [hlt])]
    exact hinner
  · rw [if_neg (by simp [hlt])]

/-- C5: an inflow notification neither of whose existing neighbors qualifies
as a companion is dropped: the conversion yields no transaction for it (in
particular none with a zero or fabricated amount) and raises no error, so
the run continues over the remaining notifications. -/
theorem c5_correlation_miss_dropped (m : List (String × String)) (ns : List Notification)
    (i : Nat) (n : Notification) (card : String)
    (hmsg : n.message = .creditCardInflow card)
    (hprev : ∀ nn, 0 < i → ns.get? (i - 1) = some nn → companionQualifies n nn = false)
    (hnext : ∀ nn, ns.get? (i + 1) = some nn → companionQualifies n nn = false) :
    processNotification m ns i n = .ok none := by
  unfold processNotification
  simp only [hmsg]
  rw [inflowDebitSum_eq_zero ns i n hprev hnext]
  rfl

/-- Witness for C5: an inflow notification whose only neighbor is a debit
notification 70 seconds away (outside the window) yields no transaction and
no error. -/
theorem c5_correlation_miss_dropped_witness :
    processNotification [("1234", "acc")]
      [{ date := ⟨⟨2025, 1, 1⟩, 1000⟩, message := .debitCard "Personal" "debited" 5000 },
       { date := ⟨⟨2025, 1, 1⟩, 1070⟩, message := .creditCardInflow "1234" }] 1
      { date := ⟨⟨2025, 1, 1⟩, 1070⟩, message := .creditCardInflow "1234" } = .ok none :=
  c5_correlation_miss_dropped _ _ 1 _ "1234" rfl
    (fun nn _ hg => by
      have e : ({ date := ⟨⟨2025, 1, 1⟩, 1000⟩, message := .debitCard "Personal" "debited" 5000 } : Notification) = nn :=
        Option.some.inj hg
      subst e
      decide)
    (fun nn hg => Option.noConfusion hg)

theorem debitSumFrom_eq_cents (n c : Notification) (acct : String) (cents : Nat)
    (hc : c.message = .debitCard acct "debited" cents)
    (hwin : dtAbsDiff c.date n.date < MAX_CREDIT_CARD_TRANSFT_TIMEDELTA) :
    debitSumFrom n c = cents := by
  have hq : companionQualifies n c = true := by
    unfold companionQualifies
    simp only [hc]
    simp [hwin]
  unfold debitSumFrom
  rw [if_pos hq]
  simp only [hc]

theorem inflowDebitSum_prev (ns : List Notification) (i : Nat) (n c : Notification)
    (h0 : 0 < i) (hg : ns.get? (i - 1) = some c) (hne : debitSumFrom n c ≠ 0) :
    inflowDebitSum ns i n = debitSumFrom n c := by
  have h1 : inflowDebitSumFirst ns i n = debitSumFrom n c := by
    unfold inflowDebitSumFirst
    rw [if_pos h0]
    simp only [hg]
  unfold inflowDebitSum
  rw [h1]
  rw [if_neg (by simp [hne])]

theorem inflowDebitSum_next (ns : List Notification) (i : Nat) (n c : Notification)
    (hfirst : inflowDebitSumFirst ns i n = 0)
    (hlt : i < ns.length - 1) (hg : ns.get? (i + 1) = some c) :
    inflowDebitSum ns i n = debitSumFrom n c := by
  unfold inflowDebitSum
  rw [hfirst]
  rw [if_pos (by simp [hlt])]
  simp only [hg]

/-- C7: for an inflow notification with a single qualifying companion debit
notification, placing the companion immediately before it and immediately
after it produces the identical resulting transaction — the amount is the
companion's magnitude (positive, in minor units) and the date is the inflow
notification's own calendar date. -/
theorem c7_companion_position_symmetric (m : List (String × String)) (n c : Notification)
    (card acct accval : String) (cents : Nat)
    (hn : n.message = .creditCardInflow card)
    (hc : c.message = .debitCard acct "debited" cents)
    (hcents : 0 < cents)
    (hwin : dtAbsDiff c.date n.date < MAX_CREDIT_CARD_TRANSFT_TIMEDELTA)
    (hacc : lookupAccount m card = .ok accval) :
    processNotification m [c, n] 1 n = processNotification m [n, c] 0 n ∧
      processNotification m [c, n] 1 n =
        .ok (some { account_id := accval, var_date := n.date.cal,
                    amount := (cents : Int) * 10 }) := by
  have hds : debitSumFrom n c = cents := debitSumFrom_eq_cents n c acct cents hc hwin
  have hcne : debitSumFrom n c ≠ 0 := by rw [hds]; omega
  have h1 : inflowDebitSum [c, n] 1 n = cents := by
    rw [inflowDebitSum_prev [c, n] 1 n c (by omega) rfl hcne, hds]
  have h2 : inflowDebitSum [n, c] 0 n = cents := by
    rw [inflowDebitSum_next [n, c] 0 n c rfl (by simp) rfl, hds]
  have hp1 : processNotification m [c, n] 1 n =
      .ok (some { account_id := accval, var_date := n.date.cal,
                  amount := (cents : Int) * 10 }) := by
    unfold processNotification
    simp only [hn]
    rw [h1, if_pos hcents]
    simp only [hacc]
  have hp2 : processNotification m [n, c] 0 n =
      .ok (some { account_id := accval, var_date := n.date.cal,
                  amount := (cents : Int) * 10 }) := by
    unfold processNotification
    simp only [hn]
    rw [h2, if_pos hcents]
    simp only [hacc]
  exact ⟨hp1.trans hp2.symm, hp1⟩

/-- Witness for C7 at a concrete pair 59 seconds apart. -/
theorem c7_companion_position_symmetric_witness :
    (processNotification [("1234", "acc")]
        [{ date := ⟨⟨2025, 1, 1⟩, 1000⟩, message := .debitCard "Personal" "debited" 5000 },
         { date := ⟨⟨2025, 1, 1⟩, 1059⟩, message := .creditCardInflow "1234" }] 1
        { date := ⟨⟨2025, 1, 1⟩, 1059⟩, message := .creditCardInflow "1234" } =
      processNotification [("1234", "acc")]
        [{ date := ⟨⟨2025, 1, 1⟩, 1059⟩, message := .creditCardInflow "1234" },
         { date := ⟨⟨2025, 1, 1⟩, 1000⟩, message := .debitCard "Personal" "debited" 5000 }] 0
        { date := ⟨⟨2025, 1, 1⟩, 1059⟩, message := .creditCardInflow "1234" }) ∧
      processNotification [("1234", "acc")]
        [{ date := ⟨⟨2025, 1, 1⟩, 1000⟩, message := .debitCard "Personal" "debited" 5000 },
         { date := ⟨⟨2025, 1, 1⟩, 1059⟩, message := .creditCardInflow "1234" }] 1
        { date := ⟨⟨2025, 1, 1⟩, 1059⟩, message := .creditCardInflow "1234" } =
        .ok (some { account_id := "acc", var_date := ⟨2025, 1, 1⟩, amount := 50000 }) :=
  c7_companion_position_symmetric [("1234", "acc")]
    { date := ⟨⟨2025, 1, 1⟩, 1059⟩, message := .creditCardInflow "1234" }
    { date := ⟨⟨2025, 1, 1⟩, 1000⟩, message := .debitCard "Personal" "debited" 5000 }
    "1234" "Personal" "acc" 5000 rfl rfl (by decide) (by decide) rfl

theorem processNotification_outflow_unmapped (m : List (String × String))
    (ns : List Notification) (i : Nat) (n : Notification) (cents : Nat)
    (card payee : String)
    (hmsg : n.message = .creditCardOutflow cents card payee)
    (hkey : m.lookup card = none) :
    processNotification m ns i n = .error ("KeyError: " ++ card) := by
  unfold processNotification
  simp only [hmsg]
  unfold lookupAccount
  simp only [hkey]

theorem processNotification_debit_unmapped (m : List (String × String))
    (ns : List Notification) (i : Nat) (n : Notification)
    (acct action : String) (cents : Nat)
    (hmsg : n.message = .debitCard acct action cents)
    (hkey : m.lookup acct = none) :
    processNotification m ns i n = .error ("KeyError: " ++ acct) := by
  unfold processNotification
  simp only [hmsg]
  unfold lookupAccount
  simp only [hkey]

theorem processNotification_inflow_unmapped (m : List (String × String))
    (ns : List Notification) (i : Nat) (n : Notification) (card : String)
    (hmsg : n.message = .creditCardInflow card)
    (hds : 0 < inflowDebitSum ns i n)
    (hkey : m.lookup card = none) :
    processNotification m ns i n = .error ("KeyError: " ++ card) := by
  unfold processNotification
  simp only [hmsg]
  rw [if_pos hds]
  unfold lookupAccount
  simp only [hkey]

theorem convertFrom_error_of_mem (m : List (String × String)) (ns : List Notification) :
    ∀ (fuel i0 i : Nat) (n : Notification) (e : String), i0 ≤ i → i < i0 + fuel →
      ns.get? i = some n → processNotification m ns i n = .error e →
      ∃ e2, convertFrom m ns i0 fuel = .error e2 := by
  intro fuel
  induction fuel with
  | zero => intro i0 i n e h1 h2 _ _; omega
  | succ f ih =>
      intro i0 i n e h1 h2 hg herr
      cases hg0 : ns.get? i0 with
      | none =>
          exfalso
          rw [List.get?_eq_none] at hg0
          have hnone : ns.get? i = none := List.get?_len_le (le_trans hg0 h1)
          rw [hnone] at hg
          exact Option.noConfusion hg
      | some n0 =>
          by_cases hii : i = i0
          · subst hii
            rw [hg] at hg0
            have h3 : n = n0 := Option.some.inj hg0
            subst h3
            refine ⟨e, ?_⟩
            simp only [convertFrom, hg, herr]
          · have hi0 : i0 + 1 ≤ i := by omega
            rcases ih (i0 + 1) i n e hi0 (by omega) hg herr with ⟨e2, he2⟩
            cases hp : processNotification m ns i0 n0 with
            | error e3 =>
                refine ⟨e3, ?_⟩
                simp only [convertFrom, hg0, hp]
            | ok r =>
                refine ⟨e2, ?_⟩
                simp only [convertFrom, hg0, hp, he2]

/-- C9 (amended): a notification stream containing a recognized notification
whose alias is missing from the caller-supplied map — an outflow
notification, a debit-account notification, or an inflow notification that
correlates successfully (recovered `debit_sum` positive) — makes the import
fail with an error (the uncaught `KeyError`), aborting before any batch
reaches the submission boundary.  An inflow that fails correlation is
dropped before its alias is ever looked up — see the counterexample. -/
theorem c9_amended_unmapped_alias_fatal (m : List (String × String)) (ns : List Notification)
    (i : Nat) (n : Notification)
    (hn : ns.get? i = some n)
    (halias :
      (∃ cents card payee, n.message = .creditCardOutflow cents card payee ∧
        m.lookup card = none) ∨
      (∃ acct action cents, n.message = .debitCard acct action cents ∧
        m.lookup acct = none) ∨
      (∃ card, n.message = .creditCardInflow card ∧ 0 < inflowDebitSum ns i n ∧
        m.lookup card = none)) :
    ∃ e, importUbsFromEmailCore m ns = .error e := by
  have hilt : i < ns.length := by
    rcases List.get?_eq_some.mp hn with ⟨hlt, _⟩
    exact hlt
  have herr : ∃ e0, processNotification m ns i n = .error e0 := by
    rcases halias with ⟨cents, card, payee, hmsg, hkey⟩ |
      ⟨acct, action, cents, hmsg, hkey⟩ | ⟨card, hmsg, hds, hkey⟩
    · exact ⟨_, processNotification_outflow_unmapped m ns i n cents card payee hmsg hkey⟩
    · exact ⟨_, processNotification_debit_unmapped m ns i n acct action cents hmsg hkey⟩
    · exact ⟨_, processNotification_inflow_unmapped m ns i n card hmsg hds hkey⟩
  rcases herr with ⟨e0, he0⟩
  rcases convertFrom_error_of_mem m ns ns.length 0 i n e0 (Nat.zero_le i)
    (by omega) hn he0 with ⟨e2, he2⟩
  refine ⟨e2, ?_⟩
  unfold importUbsFromEmailCore convertNotifications
  simp only [he2]

/-- C9 counterexample: the stream holds one recognized notification — an
inflow for card alias "1234" — whose alias is not in the (empty) map; no
companion qualifies, so the notification is dropped and the run finishes
with `ok` (an empty submitted batch) instead of the fatal error the claim
demands for every unmapped recognized alias. -/
theorem c9_unmapped_alias_counterexample :
    importUbsFromEmailCore []
      [{ date := ⟨⟨2025, 1, 1⟩, 0⟩, message := .creditCardInflow "1234" }] = .ok [] := by
  rfl

/-- Witness for the amended C9: an inflow notification for the unmapped card
alias "1234" that correlates successfully (qualifying debit companion 30
seconds earlier) aborts the import with an error. -/
theorem c9_amended_unmapped_alias_fatal_witness :
    ∃ e, importUbsFromEmailCore []
      [{ date := ⟨⟨2025, 1, 1⟩, 1000⟩, message := .debitCard "Personal" "debited" 5000 },
       { date := ⟨⟨2025, 1, 1⟩, 1030⟩, message := .creditCardInflow "1234" }] =
      .error e :=
  c9_amended_unmapped_alias_fatal [] _ 1 _ rfl
    (Or.inr (Or.inr ⟨"1234", rfl, by decide, rfl⟩))
